import Mathlib

/-!
Verification of the `hquant_py` boundary layer (packages/hquant-py/hquant_py):
a shallow embedding of `api.py` (the ctypes flat-ABI wrapper) and `native.py`
(the PyO3 adapter), together with spec-modelled fragments of the native engine
where the repository's Rust side is not part of the Python sources.

Float64 payloads cross the boundary as opaque values that the Python layer
never computes with (they are only copied, defaulted to 0.0, or converted via
`float(...)`), so they are embedded as rationals.
-/

namespace HQuantPy

/-- Embedding of the float64 payloads moved across the boundary.  The wrapper
only copies these values, so rationals model them exactly. -/
abbrev F64 := Rat

/-- Python exception classes raised by the wrapper code in `api.py`. -/
inductive PyErr
  | memoryError (msg : String)
  | valueError (msg : String)
  | runtimeError (msg : String)
  deriving DecidableEq, Repr

/-- Embedding of Python `str.upper` on the ASCII strings handled by the
wrapper (`action.upper()` in `FuturesBacktest._action_to_u8`). -/
def pyUpper (s : String) : String := String.mk (s.data.map Char.toUpper)

/-- The `Bar` dataclass of `api.py`: `buy_volume` is optional and defaults to
`0.0`, but a caller may pass `None` explicitly. -/
structure Bar where
  ts : Int
  open_ : F64
  high : F64
  low : F64
  close : F64
  volume : F64
  buy_volume : Option F64 := some 0
  deriving DecidableEq, Repr

/-- The `_BarC` ctypes wire structure: every field is materialized, including
`buy_volume`. -/
structure BarC where
  timestamp : Int
  open_ : F64
  high : F64
  low : F64
  close : F64
  volume : F64
  buy_volume : F64
  deriving DecidableEq, Repr

/-- The `_SignalC` ctypes wire structure produced by the native queue:
`strategy_id : u32`, `action : u8`, `timestamp : i64`. -/
structure SignalC where
  strategy_id : Nat
  action : Nat
  timestamp : Int
  deriving DecidableEq, Repr

/-- The decoded signal dict built by `HQuant.poll_signals`. -/
structure SignalDict where
  strategy_id : Nat
  action : String
  timestamp : Int
  deriving DecidableEq, Repr

/-- Marshalling performed by the ctypes `HQuant.push_bar` /
`update_last_bar`: builds a `_BarC` from a `Bar`, materializing
`buy_volume` as `0.0` when it is `None`. -/
def barToC (bar : Bar) : BarC :=
  { timestamp := bar.ts
    open_ := bar.open_
    high := bar.high
    low := bar.low
    close := bar.close
    volume := bar.volume
    buy_volume := match bar.buy_volume with
      | none => 0
      | some v => v }

/-- Action decoding in `HQuant.poll_signals`: `action_str` starts as
`"HOLD"`, is set to `"BUY"` when the tag is 1 and to `"SELL"` when it is 2;
every other tag keeps `"HOLD"`. -/
def decodeAction (action : Nat) : String :=
  if action = 1 then "BUY"
  else if action = 2 then "SELL"
  else "HOLD"

/-- Per-signal decoding in the loop of `HQuant.poll_signals`:
`strategy_id` and `timestamp` are passed through unchanged, the action tag is
decoded to a string. -/
def decodeSignal (s : SignalC) : SignalDict :=
  { strategy_id := s.strategy_id
    action := decodeAction s.action
    timestamp := s.timestamp }

namespace FuturesBacktest

/-- Class constant `FuturesBacktest.ACTION_BUY`. -/
def ACTION_BUY : Nat := 1

/-- Class constant `FuturesBacktest.ACTION_SELL`. -/
def ACTION_SELL : Nat := 2

/-- Class constant `FuturesBacktest.ACTION_HOLD`. -/
def ACTION_HOLD : Nat := 3

/-- Embedding of `FuturesBacktest._action_to_u8`: upper-cases the action and
maps BUY/SELL/HOLD to 1/2/3, raising `ValueError` otherwise. -/
def action_to_u8 (action : String) : Except PyErr Nat :=
  let a := pyUpper action
  if a = "BUY" then .ok ACTION_BUY
  else if a = "SELL" then .ok ACTION_SELL
  else if a = "HOLD" then .ok ACTION_HOLD
  else .error (.valueError ("invalid action: " ++ action))

end FuturesBacktest

/-- Python truthiness of the `_ptr` attribute (a ctypes `c_void_p` result:
`None` for `NULL`, an integer otherwise).  `if not self._ptr` treats `None`
and `0` as falsy. -/
def truthy : Option Nat → Bool
  | none => false
  | some p => p != 0

namespace HQuant

/-- Python-side state of one `HQuant` wrapper instance: the `_ptr` attribute
(`none` models Python `None`) together with a count of the `hquant_free`
calls performed on the native side over the instance's lifetime. -/
structure State where
  ptr : Option Nat
  freeCount : Nat
  deriving DecidableEq, Repr

/-- Tail of `HQuant.__init__` given the native `hquant_new` result (a ctypes
`c_void_p`: `none` when the native side returned `NULL`): `self._ptr` is set
to the result and `MemoryError` is raised when it is falsy. -/
def init (newResult : Option Nat) : Except PyErr State :=
  if truthy newResult then .ok { ptr := newResult, freeCount := 0 }
  else .error (.memoryError "hquant_new returned NULL")

/-- The partially constructed object that exists when `hquant_new` has
returned and `__init__` is about to raise: `_ptr` holds the native result,
no free has happened. -/
def partialState (newResult : Option Nat) : State :=
  { ptr := newResult, freeCount := 0 }

/-- Embedding of `HQuant.close`: when `_ptr` is truthy, call `hquant_free`
and set `_ptr = None`; otherwise do nothing. -/
def close (s : State) : State :=
  if truthy s.ptr then { ptr := none, freeCount := s.freeCount + 1 }
  else s

/-- Embedding of `HQuant.__del__`: it calls `close`, swallowing exceptions
(`close` cannot raise in this model). -/
def del (s : State) : State := close s

/-- Native calls issued by the ctypes wrapper, recording the handle argument
passed to the foreign function. -/
inductive NativeCall
  | pushBar (handle : Option Nat) (bar : BarC)
  deriving DecidableEq, Repr

/-- Embedding of `HQuant.push_bar`: it marshals the bar into a `_BarC` and
invokes `hquant_push_bar(self._ptr, barC)` unconditionally — there is no
check of `_ptr` before the native call. -/
def push_bar (s : State) (bar : Bar) : Except PyErr NativeCall :=
  .ok (.pushBar s.ptr (barToC bar))

end HQuant

namespace FuturesBacktest

/-- Python-side state of one `FuturesBacktest` wrapper instance: the `_ptr`
attribute and a count of the `hq_backtest_free` calls performed. -/
structure State where
  ptr : Option Nat
  freeCount : Nat
  deriving DecidableEq, Repr

/-- Tail of `FuturesBacktest.__init__` given the native `hq_backtest_new`
result: `self._ptr` is set and `ValueError` is raised when it is falsy. -/
def init (newResult : Option Nat) : Except PyErr State :=
  if truthy newResult then .ok { ptr := newResult, freeCount := 0 }
  else .error (.valueError "hq_backtest_new returned NULL (invalid params?)")

/-- The partially constructed object present when `hq_backtest_new` has
returned `NULL` and `__init__` is about to raise. -/
def partialState (newResult : Option Nat) : State :=
  { ptr := newResult, freeCount := 0 }

/-- Embedding of `FuturesBacktest.close`: when `_ptr` is truthy, call
`hq_backtest_free` and set `_ptr = None`; otherwise do nothing. -/
def close (s : State) : State :=
  if truthy s.ptr then { ptr := none, freeCount := s.freeCount + 1 }
  else s

/-- Embedding of `FuturesBacktest.__del__`: calls `close`, swallowing
exceptions. -/
def del (s : State) : State := close s

/-- The argument tuple delivered to `hq_backtest_apply_signal` by the ctypes
wrapper: handle, encoded `u8` action, price, margin. -/
structure ApplyCall where
  handle : Option Nat
  action_u8 : Nat
  price : F64
  margin : F64
  deriving DecidableEq, Repr

/-- Embedding of the ctypes `FuturesBacktest.apply_signal`: the action string
is validated and encoded by `_action_to_u8` before the native call; a
`ValueError` propagates and no native call is made. -/
def apply_signal (s : State) (action : String) (price margin : F64) :
    Except PyErr ApplyCall :=
  (action_to_u8 action).map
    (fun u => { handle := s.ptr, action_u8 := u, price := price, margin := margin })

end FuturesBacktest

/-- A cleanup request on a wrapper instance: an explicit `close()` call or a
finalizer-driven `__del__`. -/
inductive CleanupOp
  | explicitClose
  | finalizerDel
  deriving DecidableEq, Repr

/-- Run a sequence of cleanup requests against an `HQuant` instance. -/
def HQuant.runCleanup (s : HQuant.State) (ops : List CleanupOp) : HQuant.State :=
  ops.foldl (fun s op => match op with
    | .explicitClose => HQuant.close s
    | .finalizerDel => HQuant.del s) s

/-- Run a sequence of cleanup requests against a `FuturesBacktest` instance. -/
def FuturesBacktest.runCleanup (s : FuturesBacktest.State) (ops : List CleanupOp) :
    FuturesBacktest.State :=
  ops.foldl (fun s op => match op with
    | .explicitClose => FuturesBacktest.close s
    | .finalizerDel => FuturesBacktest.del s) s

/-- Embedding of Python `str.startswith`: the second string's characters are
a prefix of the first's. -/
def pyStartsWith (s pre : String) : Bool := pre.data.isPrefixOf s.data

/-- Embedding of `_default_lib_name`: platform-specific default file name,
`RuntimeError` on an unsupported `sys.platform`. -/
def default_lib_name (platform : String) : Except PyErr String :=
  if platform = "darwin" then .ok "libhquant_rs.dylib"
  else if pyStartsWith platform "linux" then .ok "libhquant_rs.so"
  else if platform = "win32" then .ok "hquant_rs.dll"
  else .error (.runtimeError ("unsupported platform: " ++ platform))

/-- The observable effect of `_load_lib`: which file name is handed to
`ctypes.CDLL`.  An `Except.error` result means no load was attempted. -/
inductive LibLoad
  | cdll (path : String)
  deriving DecidableEq, Repr

/-- Embedding of `_load_lib(path)`: when `path` is `None` consult the
`HQUANT_RS_LIB` environment variable; when the result is still falsy
(`None` or the empty string) fall back to `_default_lib_name()`; finally
load via `ctypes.CDLL`. -/
def load_lib (platform : String) (env : Option String) (path : Option String) :
    Except PyErr LibLoad :=
  let p1 : Option String := match path with
    | none => env
    | some p => some p
  match p1 with
  | none => (default_lib_name platform).map .cdll
  | some p =>
    if p = "" then (default_lib_name platform).map .cdll
    else .ok (.cdll p)

/-- Modelled from the spec: the native signal queue behind `hquant_signals_len`
and `hquant_poll_signals` (the Rust engine is not part of the Python sources).
Per §4.3/§6 of the spec, `signals_len` reports the queue length and
`poll_signals(handle, buf, cap)` copies up to `cap` queued signals (oldest
first) into the buffer and removes them from the queue. -/
structure NativeQueue where
  queue : List SignalC
  deriving DecidableEq, Repr

/-- Modelled from the spec: `hquant_signals_len` returns the queue length. -/
def hquant_signals_len (q : NativeQueue) : Nat := q.queue.length

/-- Modelled from the spec: `hquant_poll_signals` copies up to `cap` signals
oldest first and drains them from the queue; the returned list's length is
the authoritative copied count. -/
def hquant_poll_signals (q : NativeQueue) (cap : Nat) : List SignalC × NativeQueue :=
  (q.queue.take cap, ⟨q.queue.drop cap⟩)

/-- Embedding of `HQuant.poll_signals` against the spec-modelled queue: query
the length; when it is zero return `[]` without allocating a buffer (the
`Bool` component records whether a `_SignalC` buffer was allocated);
otherwise allocate, request a copy of `n` signals, and decode the returned
count's worth of entries. -/
def HQuant.poll_signals (q : NativeQueue) :
    List SignalDict × Bool × NativeQueue :=
  let n := hquant_signals_len q
  if n ≤ 0 then ([], false, q)
  else
    let r := hquant_poll_signals q n
    (r.1.map decodeSignal, true, r.2)

/-- Modelled from the spec: the PyO3 module `hquant_py_native` is not part of
the Python sources; per §4.2 it must satisfy the same contracts as the flat
ABI.  Its `push_bar` receives `buy_volume` as an optional value and, per §6,
always materializes it (defaulting to 0.0). -/
def nativeModulePushBar (ts : Int) (o h l c v : F64) (bv : Option F64) : BarC :=
  { timestamp := ts
    open_ := o
    high := h
    low := l
    close := c
    volume := v
    buy_volume := bv.getD 0 }

/-- Embedding of `native.py` `HQuant.push_bar`: it forwards the `Bar` fields
positionally, passing `None` through for a missing `buy_volume`, and the
spec-modelled module materializes the wire bar. -/
def nativeBackendPushBar (bar : Bar) : BarC :=
  nativeModulePushBar bar.ts bar.open_ bar.high bar.low bar.close bar.volume
    bar.buy_volume

/-- Modelled from the spec: `hquant_py_native.FuturesBacktest.apply_signal`
validates the action case-insensitively against {BUY, SELL, HOLD} before any
engine call (§4.5: invalid strings fail fast with a typed error) and encodes
BUY/SELL/HOLD as 1/2/3 (§4.3's tag mapping).  The result is the `(action u8,
price, margin)` triple handed to the engine. -/
def nativeModuleApplySignal (action : String) (price margin : F64) :
    Except PyErr (Nat × F64 × F64) :=
  let a := pyUpper action
  if a = "BUY" then .ok (1, price, margin)
  else if a = "SELL" then .ok (2, price, margin)
  else if a = "HOLD" then .ok (3, price, margin)
  else .error (.valueError ("InvalidActionError: " ++ action))

/-- Embedding of `native.py` `FuturesBacktest.apply_signal`: the Python layer
forwards `str(action)` unchanged to the spec-modelled module. -/
def nativeBackendApplySignal (action : String) (price margin : F64) :
    Except PyErr (Nat × F64 × F64) :=
  nativeModuleApplySignal action price margin

/-- The `_HqColumnF64` ctypes structure returned by `hquant_close_column`:
the `buffer` field is the backing ring storage the `ptr` points at (always of
length `capacity`), with the raw `len` and `head` metadata. -/
structure HqColumnF64 where
  buffer : List F64
  capacity : Nat
  len : Nat
  head : Nat
  deriving DecidableEq, Repr

/-- Embedding of `HQuant.close_ordered_slices` applied to the column view
returned by the native call: when `len` is zero both slices are empty;
otherwise `start = (head + capacity - len) % capacity` and the slice end is
`start + len` (named `e`, since `end` is reserved), and the buffer is split
as in the source (`buf[start:end]` with an empty second slice when
`e ≤ capacity`, else `buf[start:]` and `buf[:e - capacity]`). -/
def close_ordered_slices (col : HqColumnF64) : List F64 × List F64 :=
  if col.len = 0 then ([], [])
  else
    let cap := col.capacity
    let start := (col.head + cap - col.len) % cap
    let e := start + col.len
    if e ≤ cap then ((col.buffer.take e).drop start, [])
    else (col.buffer.drop start, col.buffer.take (e - cap))

/-- Modelled from the spec: the native close-column ring buffer (the Rust
engine is not part of the Python sources).  Per §4.4 and the glossary, it is
a fixed-capacity store where `head` is one past the most recently written
slot, writes wrap modulo the capacity, and `len` saturates at the
capacity. -/
structure RingState where
  buffer : List F64
  capacity : Nat
  len : Nat
  head : Nat
  deriving DecidableEq, Repr

/-- Modelled from the spec: a freshly created ring of a given backing store
(arbitrary initial contents, `len = 0`, `head = 0`); the capacity is the
backing store's length. -/
def mkRing (b0 : List F64) : RingState :=
  { buffer := b0, capacity := b0.length, len := 0, head := 0 }

/-- Modelled from the spec: one ring-buffer write — store at `head`, advance
`head` modulo the capacity, and let `len` grow until it saturates at the
capacity. -/
def RingState.push (s : RingState) (x : F64) : RingState :=
  { buffer := s.buffer.set s.head x
    capacity := s.capacity
    len := min (s.len + 1) s.capacity
    head := (s.head + 1) % s.capacity }

/-- Push a whole series of close values into the ring, oldest first. -/
def RingState.pushAll (s : RingState) (xs : List F64) : RingState :=
  xs.foldl RingState.push s

/-- Modelled from the spec: `hquant_close_column` hands the caller a borrowed
descriptor of the ring's backing store and raw metadata. -/
def RingState.close_column (s : RingState) : HqColumnF64 :=
  { buffer := s.buffer, capacity := s.capacity, len := s.len, head := s.head }

/-- Start index of the chronological window inside the ring, as computed by
`close_ordered_slices`. -/
def HqColumnF64.startIdx (col : HqColumnF64) : Nat :=
  (col.head + col.capacity - col.len) % col.capacity

/-- The chronological read-back of a column view: element `i` of the ordered
series lives at ring slot `(startIdx + i) % capacity`. -/
def HqColumnF64.orderedElems (col : HqColumnF64) : List F64 :=
  (List.range col.len).map (fun i => col.buffer.getD ((col.startIdx + i) % col.capacity) 0)

theorem RingState.pushAll_capacity (s : RingState) (xs : List F64) :
    (s.pushAll xs).capacity = s.capacity := by
  induction xs generalizing s with
  | nil => rfl
  | cons x xs ih => simpa [RingState.pushAll] using ih (s.push x)

theorem RingState.pushAll_buffer_length (s : RingState) (xs : List F64) :
    (s.pushAll xs).buffer.length = s.buffer.length := by
  induction xs generalizing s with
  | nil => rfl
  | cons x xs ih =>
    have h := ih (s.push x)
    simpa [RingState.pushAll, RingState.push] using h

theorem RingState.pushAll_append_singleton (s : RingState) (xs : List F64) (x : F64) :
    s.pushAll (xs ++ [x]) = (s.pushAll xs).push x := by
  simp [RingState.pushAll, List.foldl_append]

theorem pushAll_head (b0 : List F64) (xs : List F64) :
    ((mkRing b0).pushAll xs).head = xs.length % b0.length := by
  induction xs using List.reverseRecOn with
  | nil => simp [mkRing, RingState.pushAll]
  | append_singleton xs x ih =>
    rw [RingState.pushAll_append_singleton]
    have hcap : ((mkRing b0).pushAll xs).capacity = b0.length := by
      rw [RingState.pushAll_capacity]; rfl
    simp only [RingState.push, ih, hcap, List.length_append, List.length_singleton]
    exact Nat.mod_add_mod xs.length b0.length 1

theorem pushAll_len (b0 : List F64) (xs : List F64) :
    ((mkRing b0).pushAll xs).len = min xs.length b0.length := by
  induction xs using List.reverseRecOn with
  | nil => simp [mkRing, RingState.pushAll]
  | append_singleton xs x ih =>
    rw [RingState.pushAll_append_singleton]
    have hcap : ((mkRing b0).pushAll xs).capacity = b0.length := by
      rw [RingState.pushAll_capacity]; rfl
    simp only [RingState.push, ih, hcap, List.length_append, List.length_singleton]
    omega

theorem pushAll_content (b0 : List F64) (xs : List F64) :
    ∀ k, k < xs.length → xs.length ≤ k + b0.length →
      ((mkRing b0).pushAll xs).buffer.getD (k % b0.length) 0 = xs.getD k 0 := by
  induction xs using List.reverseRecOn with
  | nil => intro k hk _; exact absurd hk (Nat.not_lt_zero k)
  | append_singleton xs x ih =>
    intro k hk hkc
    have hn : (xs ++ [x]).length = xs.length + 1 := by simp
    rw [hn] at hk hkc
    have hc : 0 < b0.length := by omega
    have hblen : ((mkRing b0).pushAll xs).buffer.length = b0.length := by
      rw [RingState.pushAll_buffer_length]; rfl
    have hhead : ((mkRing b0).pushAll xs).head = xs.length % b0.length :=
      pushAll_head b0 xs
    rw [RingState.pushAll_append_singleton]
    simp only [RingState.push, hhead]
    have hkmod : k % b0.length < b0.length := Nat.mod_lt k hc
    have hset_len :
        ((((mkRing b0).pushAll xs).buffer.set (xs.length % b0.length) x)).length
          = b0.length := by
      rw [List.length_set, hblen]
    rcases Nat.lt_or_ge k xs.length with hklt | hkge
    · -- k indexes into the old part: the slot written for x is distinct mod capacity
      have hne : xs.length % b0.length ≠ k % b0.length := by
        intro heq
        have hdvd : b0.length ∣ xs.length - k :=
          (Nat.modEq_iff_dvd' (Nat.le_of_lt hklt)).mp heq.symm
        have hpos : 0 < xs.length - k := by omega
        have := Nat.le_of_dvd hpos hdvd
        omega
      rw [List.getD_eq_getElem _ 0 (by omega), List.getElem_set]
      rw [if_neg hne]
      have hrec := ih k hklt (by omega)
      rw [List.getD_eq_getElem _ 0 (by omega)] at hrec
      rw [hrec, List.getD_eq_getElem _ 0 (by omega),
        List.getD_eq_getElem _ 0 (by rw [hn]; omega)]
      exact (List.getElem_append_left (by omega)).symm
    · -- k = xs.length: this is the slot the final push wrote
      have hkeq : k = xs.length := by omega
      subst hkeq
      rw [List.getD_eq_getElem _ 0 (by omega), List.getElem_set]
      rw [if_pos rfl, List.getD_eq_getElem _ 0 (by rw [hn]; omega)]
      exact (List.getElem_concat_length xs x _ rfl (by rw [hn]; omega)).symm

theorem close_ordered_slices_eq_cases (col : HqColumnF64) :
    close_ordered_slices col =
      if col.len = 0 then ([], [])
      else if col.startIdx + col.len ≤ col.capacity then
        ((col.buffer.take (col.startIdx + col.len)).drop col.startIdx, [])
      else
        (col.buffer.drop col.startIdx,
          col.buffer.take (col.startIdx + col.len - col.capacity)) := rfl

theorem close_ordered_slices_eq_orderedElems (col : HqColumnF64)
    (hbuf : col.buffer.length = col.capacity)
    (hlen : col.len ≤ col.capacity)
    (hhead : col.head < col.capacity) :
    (close_ordered_slices col).1 ++ (close_ordered_slices col).2 = col.orderedElems := by
  rcases Nat.eq_zero_or_pos col.len with h0 | hpos
  · simp [close_ordered_slices, HqColumnF64.orderedElems, h0]
  have hcap : 0 < col.capacity := Nat.lt_of_le_of_lt (Nat.zero_le _) hhead
  have hstart : col.startIdx < col.capacity := Nat.mod_lt _ hcap
  rw [close_ordered_slices_eq_cases, if_neg (by omega)]
  rcases le_or_lt (col.startIdx + col.len) col.capacity with hle | hgt
  · rw [if_pos hle]
    simp only [List.append_nil]
    apply List.ext_getElem
    · simp only [HqColumnF64.orderedElems, List.length_drop, List.length_take,
        List.length_map, List.length_range]
      omega
    · intro i h1 h2
      have hi : i < col.len := by
        simpa [HqColumnF64.orderedElems] using h2
      simp only [HqColumnF64.orderedElems, List.getElem_map, List.getElem_range,
        List.getElem_drop, List.getElem_take]
      have hlt : col.startIdx + i < col.capacity := by omega
      rw [Nat.mod_eq_of_lt hlt, List.getD_eq_getElem _ 0 (by omega)]
  · rw [if_neg (by omega)]
    apply List.ext_getElem
    · simp only [List.length_append, HqColumnF64.orderedElems, List.length_drop,
        List.length_take, List.length_map, List.length_range]
      omega
    · intro i h1 h2
      have hi : i < col.len := by
        simpa [HqColumnF64.orderedElems] using h2
      simp only [HqColumnF64.orderedElems, List.getElem_map, List.getElem_range]
      rcases Nat.lt_or_ge i (col.capacity - col.startIdx) with hilt | hige
      · rw [List.getElem_append_left (by simp only [List.length_drop]; omega)]
        simp only [List.getElem_drop]
        have hlt : col.startIdx + i < col.capacity := by omega
        rw [Nat.mod_eq_of_lt hlt, List.getD_eq_getElem _ 0 (by omega)]
      · rw [List.getElem_append_right (by simp only [List.length_drop]; omega)]
        simp only [List.getElem_take, List.length_drop]
        have hmod : (col.startIdx + i) % col.capacity
            = i - (col.buffer.length - col.startIdx) := by
          rw [Nat.mod_eq_sub_mod (by omega), Nat.mod_eq_of_lt (by omega)]
          omega
        rw [hmod, List.getD_eq_getElem _ 0 (by omega)]

/-- C1: for the column metadata returned by the native close-column call on a
ring of positive capacity into which the closes `xs` have been pushed,
`close_ordered_slices` returns two slices whose concatenation has length
`len` and equals the `len` most recently pushed closes, oldest first (the
suffix of `xs` of length `min |xs| capacity`). -/
theorem close_ordered_slices_chronological (b0 : List F64) (hc : 0 < b0.length)
    (xs : List F64) :
    ((close_ordered_slices ((mkRing b0).pushAll xs).close_column).1
        ++ (close_ordered_slices ((mkRing b0).pushAll xs).close_column).2).length
      = ((mkRing b0).pushAll xs).len
    ∧ (close_ordered_slices ((mkRing b0).pushAll xs).close_column).1
        ++ (close_ordered_slices ((mkRing b0).pushAll xs).close_column).2
      = xs.drop (xs.length - min xs.length b0.length) := by
  have hlen := pushAll_len b0 xs
  have hhead := pushAll_head b0 xs
  have hcap' : ((mkRing b0).pushAll xs).capacity = b0.length := by
    rw [RingState.pushAll_capacity]; rfl
  have hblen' : ((mkRing b0).pushAll xs).buffer.length = b0.length := by
    rw [RingState.pushAll_buffer_length]; rfl
  have hA := close_ordered_slices_eq_orderedElems ((mkRing b0).pushAll xs).close_column
    (by simp only [RingState.close_column]; rw [hblen', hcap'])
    (by simp only [RingState.close_column]; rw [hlen, hcap']; omega)
    (by simp only [RingState.close_column]; rw [hhead, hcap']; exact Nat.mod_lt _ hc)
  have hE : ((mkRing b0).pushAll xs).close_column.orderedElems
      = xs.drop (xs.length - min xs.length b0.length) := by
    apply List.ext_getElem
    · simp only [HqColumnF64.orderedElems, List.length_map, List.length_range,
        RingState.close_column, List.length_drop, hlen]
      omega
    · intro i h1 h2
      have hi : i < min xs.length b0.length := by
        simpa [HqColumnF64.orderedElems, RingState.close_column, hlen] using h1
      simp only [HqColumnF64.orderedElems, List.getElem_map, List.getElem_range,
        RingState.close_column, HqColumnF64.startIdx, List.getElem_drop]
      rw [hhead, hcap', hlen]
      have hidx : ((xs.length % b0.length + b0.length - min xs.length b0.length)
            % b0.length + i) % b0.length
          = (xs.length - min xs.length b0.length + i) % b0.length := by
        rw [Nat.mod_add_mod]
        have h3 : xs.length % b0.length + b0.length - min xs.length b0.length + i
            = xs.length % b0.length + (b0.length - min xs.length b0.length + i) := by
          omega
        rw [h3]
        have h4 : (xs.length % b0.length + (b0.length - min xs.length b0.length + i))
              % b0.length
            = (xs.length + (b0.length - min xs.length b0.length + i)) % b0.length :=
          (Nat.mod_modEq xs.length b0.length).add_right
            (b0.length - min xs.length b0.length + i)
        rw [h4]
        have h5 : xs.length + (b0.length - min xs.length b0.length + i)
            = (xs.length - min xs.length b0.length + i) + b0.length := by omega
        rw [h5, Nat.add_mod_right]
      rw [hidx]
      have hcontent := pushAll_content b0 xs (xs.length - min xs.length b0.length + i)
        (by omega) (by omega)
      rw [hcontent, List.getD_eq_getElem _ 0 (by omega)]
  refine ⟨?_, ?_⟩
  · rw [hA, hE, hlen]
    simp only [List.length_drop]
    omega
  · rw [hA, hE]

/-- Witness for C1: a capacity-4 ring into which the closes 1..5 were pushed
yields the wrapped ordered view `[2, 3, 4, 5]`. -/
theorem close_ordered_slices_chronological_witness :
    0 < ([0, 0, 0, 0] : List F64).length
    ∧ (close_ordered_slices
          ((mkRing [0, 0, 0, 0]).pushAll [1, 2, 3, 4, 5]).close_column).1
        ++ (close_ordered_slices
          ((mkRing [0, 0, 0, 0]).pushAll [1, 2, 3, 4, 5]).close_column).2
      = [2, 3, 4, 5] :=
  ⟨by decide, by
    have h := close_ordered_slices_chronological [0, 0, 0, 0] (by decide) [1, 2, 3, 4, 5]
    rw [h.2]; decide⟩

theorem runCleanup_dead_hquant (s : HQuant.State) (hs : truthy s.ptr = false)
    (ops : List CleanupOp) : HQuant.runCleanup s ops = s := by
  induction ops with
  | nil => rfl
  | cons op ops ih =>
    cases op
    · show HQuant.runCleanup (HQuant.close s) ops = s
      rw [show HQuant.close s = s from by simp [HQuant.close, hs]]
      exact ih
    · show HQuant.runCleanup (HQuant.del s) ops = s
      rw [show HQuant.del s = s from by simp [HQuant.del, HQuant.close, hs]]
      exact ih

theorem runCleanup_dead_backtest (s : FuturesBacktest.State)
    (hs : truthy s.ptr = false) (ops : List CleanupOp) :
    FuturesBacktest.runCleanup s ops = s := by
  induction ops with
  | nil => rfl
  | cons op ops ih =>
    cases op
    · show FuturesBacktest.runCleanup (FuturesBacktest.close s) ops = s
      rw [show FuturesBacktest.close s = s from by simp [FuturesBacktest.close, hs]]
      exact ih
    · show FuturesBacktest.runCleanup (FuturesBacktest.del s) ops = s
      rw [show FuturesBacktest.del s = s from by
        simp [FuturesBacktest.del, FuturesBacktest.close, hs]]
      exact ih

/-- C2: starting from a successfully constructed wrapper (live pointer `p`,
no frees yet), any nonempty sequence of cleanup requests — explicit `close()`
calls and finalizer `__del__` runs, in any order — performs the underlying
native release exactly once, for both `HQuant` (`hquant_free`) and
`FuturesBacktest` (`hq_backtest_free`): the first request frees, every later
request is a no-op. -/
theorem free_called_exactly_once (p : Nat) (hp : p ≠ 0) (ops : List CleanupOp)
    (hops : ops ≠ []) :
    (HQuant.runCleanup { ptr := some p, freeCount := 0 } ops).freeCount = 1
    ∧ (FuturesBacktest.runCleanup { ptr := some p, freeCount := 0 } ops).freeCount = 1 := by
  have htr : truthy (some p) = true := by simp [truthy, hp]
  cases ops with
  | nil => exact absurd rfl hops
  | cons op rest =>
    have h1 : HQuant.runCleanup { ptr := some p, freeCount := 0 } (op :: rest)
        = HQuant.runCleanup { ptr := none, freeCount := 1 } rest := by
      cases op <;> simp [HQuant.runCleanup, HQuant.close, HQuant.del, htr]
    have h2 : FuturesBacktest.runCleanup { ptr := some p, freeCount := 0 } (op :: rest)
        = FuturesBacktest.runCleanup { ptr := none, freeCount := 1 } rest := by
      cases op <;>
        simp [FuturesBacktest.runCleanup, FuturesBacktest.close, FuturesBacktest.del, htr]
    rw [h1, h2, runCleanup_dead_hquant { ptr := none, freeCount := 1 } rfl,
      runCleanup_dead_backtest { ptr := none, freeCount := 1 } rfl]
    exact ⟨rfl, rfl⟩

/-- Witness for C2: pointer 1, explicit close followed by a finalizer run —
exactly one native free on each wrapper. -/
theorem free_called_exactly_once_witness :
    (1 : Nat) ≠ 0
    ∧ ([CleanupOp.explicitClose, CleanupOp.finalizerDel] : List CleanupOp) ≠ []
    ∧ (HQuant.runCleanup { ptr := some 1, freeCount := 0 }
        [CleanupOp.explicitClose, CleanupOp.finalizerDel]).freeCount = 1
    ∧ (FuturesBacktest.runCleanup { ptr := some 1, freeCount := 0 }
        [CleanupOp.explicitClose, CleanupOp.finalizerDel]).freeCount = 1 :=
  ⟨by decide, by decide,
    (free_called_exactly_once 1 (by decide) _ (by decide)).1,
    (free_called_exactly_once 1 (by decide) _ (by decide)).2⟩

/-- A concrete bar for closed evaluations. -/
def sampleBar : Bar :=
  { ts := 0, open_ := 1, high := 1, low := 1, close := 1, volume := 1,
    buy_volume := some 0 }

/-- C3 counterexample: after `close()` has destroyed the handle, `push_bar`
does not fail with any typed error — it returns successfully, invoking
`hquant_push_bar` with the destroyed (`None`) handle.  There is no
precondition check at the boundary. -/
theorem push_bar_after_close_invokes_native :
    HQuant.push_bar (HQuant.close { ptr := some 1, freeCount := 0 }) sampleBar
      = .ok (HQuant.NativeCall.pushBar none (barToC sampleBar)) := rfl

/-- C3 amended: an operation such as `push_bar` invoked after destruction
raises no typed error; it performs the native call with the null (`None`)
handle, relying on the native side's behavior. -/
theorem push_bar_after_destroy_no_error (s : HQuant.State) (hs : s.ptr = none)
    (bar : Bar) :
    HQuant.push_bar s bar = .ok (.pushBar none (barToC bar)) := by
  simp [HQuant.push_bar, hs]

/-- Witness for the amended C3: the state right after `close()` has
`_ptr = None`, and `push_bar` on it succeeds with a null-handle native call. -/
theorem push_bar_after_destroy_no_error_witness :
    (HQuant.close { ptr := some 1, freeCount := 0 }).ptr = none
    ∧ HQuant.push_bar (HQuant.close { ptr := some 1, freeCount := 0 })
        { sampleBar with buy_volume := none }
      = .ok (.pushBar none (barToC { sampleBar with buy_volume := none })) :=
  ⟨rfl, push_bar_after_destroy_no_error _ rfl _⟩

/-- C4: the ctypes wrapper and the PyO3 adapter (with the native module
modelled from the spec) are observably identical on `apply_signal` and
`push_bar`: for every action string the two backends either both fail with a
typed error before any engine call or both deliver the same `(action u8,
price, margin)` triple, and for every `Bar` (including `buy_volume = None`)
both deliver the same materialized wire bar. -/
theorem backends_observably_identical (s : FuturesBacktest.State)
    (action : String) (price margin : F64) (bar : Bar) :
    ((FuturesBacktest.apply_signal s action price margin).map
        (fun call => (call.action_u8, call.price, call.margin))).toOption
      = (nativeBackendApplySignal action price margin).toOption
    ∧ barToC bar = nativeBackendPushBar bar := by
  constructor
  · simp only [FuturesBacktest.apply_signal, FuturesBacktest.action_to_u8,
      nativeBackendApplySignal, nativeModuleApplySignal,
      FuturesBacktest.ACTION_BUY, FuturesBacktest.ACTION_SELL,
      FuturesBacktest.ACTION_HOLD]
    split_ifs <;> simp [Except.map, Except.toOption]
  · cases hb : bar.buy_volume <;>
      simp [barToC, nativeBackendPushBar, nativeModulePushBar, hb]

/-- C5: the ctypes `apply_signal` validates the action before any native
call: when the upper-cased action is none of BUY/SELL/HOLD it raises
`ValueError` (and no native call is produced), and each case variant of
BUY/SELL/HOLD succeeds, encoded as 1/2/3 for the native call. -/
theorem apply_signal_action_validation (s : FuturesBacktest.State)
    (action : String) (price margin : F64) :
    (pyUpper action ≠ "BUY" → pyUpper action ≠ "SELL" → pyUpper action ≠ "HOLD" →
      FuturesBacktest.apply_signal s action price margin
        = .error (.valueError ("invalid action: " ++ action)))
    ∧ (pyUpper action = "BUY" →
      FuturesBacktest.apply_signal s action price margin
        = .ok { handle := s.ptr, action_u8 := 1, price := price, margin := margin })
    ∧ (pyUpper action = "SELL" →
      FuturesBacktest.apply_signal s action price margin
        = .ok { handle := s.ptr, action_u8 := 2, price := price, margin := margin })
    ∧ (pyUpper action = "HOLD" →
      FuturesBacktest.apply_signal s action price margin
        = .ok { handle := s.ptr, action_u8 := 3, price := price, margin := margin }) := by
  refine ⟨?_, ?_, ?_, ?_⟩
  · intro h1 h2 h3
    simp [FuturesBacktest.apply_signal, FuturesBacktest.action_to_u8, h1, h2, h3,
      Except.map]
  · intro h
    simp [FuturesBacktest.apply_signal, FuturesBacktest.action_to_u8, h,
      FuturesBacktest.ACTION_BUY, Except.map]
  · intro h
    have hne : pyUpper action ≠ "BUY" := by rw [h]; decide
    simp [FuturesBacktest.apply_signal, FuturesBacktest.action_to_u8, h, hne,
      FuturesBacktest.ACTION_SELL, Except.map]
  · intro h
    have hne1 : pyUpper action ≠ "BUY" := by rw [h]; decide
    have hne2 : pyUpper action ≠ "SELL" := by rw [h]; decide
    simp [FuturesBacktest.apply_signal, FuturesBacktest.action_to_u8, h, hne1, hne2,
      FuturesBacktest.ACTION_HOLD, Except.map]

/-- Witness for C5: `"bUy"` succeeds encoded as 1; `"foo"` raises
`ValueError` before any native call. -/
theorem apply_signal_action_validation_witness :
    FuturesBacktest.apply_signal { ptr := some 1, freeCount := 0 } "bUy" 5 7
      = .ok { handle := some 1, action_u8 := 1, price := 5, margin := 7 }
    ∧ FuturesBacktest.apply_signal { ptr := some 1, freeCount := 0 } "foo" 5 7
      = .error (.valueError ("invalid action: " ++ "foo")) :=
  ⟨(apply_signal_action_validation _ "bUy" 5 7).2.1 (by decide),
    (apply_signal_action_validation _ "foo" 5 7).1 (by decide) (by decide) (by decide)⟩

/-- C6: the per-signal decoding of `poll_signals` maps tag 1 to BUY, 2 to
SELL, 3 to HOLD, decodes every tag outside that set silently as HOLD (no
error path exists), and passes `strategy_id` and `timestamp` through
unchanged. -/
theorem poll_signals_decode (raw : SignalC) :
    (decodeSignal raw).strategy_id = raw.strategy_id
    ∧ (decodeSignal raw).timestamp = raw.timestamp
    ∧ (raw.action = 1 → (decodeSignal raw).action = "BUY")
    ∧ (raw.action = 2 → (decodeSignal raw).action = "SELL")
    ∧ (raw.action = 3 → (decodeSignal raw).action = "HOLD")
    ∧ (raw.action ≠ 1 → raw.action ≠ 2 → raw.action ≠ 3 →
        (decodeSignal raw).action = "HOLD") := by
  refine ⟨rfl, rfl, ?_, ?_, ?_, ?_⟩
  · intro h; simp [decodeSignal, decodeAction, h]
  · intro h; simp [decodeSignal, decodeAction, h]
  · intro h; simp [decodeSignal, decodeAction, h]
  · intro h1 h2 h3; simp [decodeSignal, decodeAction, h1, h2, h3]

/-- Witness for C6: an unknown tag 9 decodes silently as HOLD with
`strategy_id` and `timestamp` preserved. -/
theorem poll_signals_decode_witness :
    (decodeSignal { strategy_id := 7, action := 9, timestamp := 42 }).strategy_id = 7
    ∧ (decodeSignal { strategy_id := 7, action := 9, timestamp := 42 }).timestamp = 42
    ∧ (decodeSignal { strategy_id := 7, action := 9, timestamp := 42 }).action = "HOLD" :=
  ⟨(poll_signals_decode _).1, (poll_signals_decode _).2.1,
    (poll_signals_decode _).2.2.2.2.2 (by decide) (by decide) (by decide)⟩

/-- C7: `poll_signals` with a zero native queue length returns the empty
sequence without allocating the signal buffer, and it drains the queue: an
immediately repeated call with no intervening native activity returns the
empty sequence (and allocates nothing). -/
theorem poll_signals_drains (q : NativeQueue) :
    (hquant_signals_len q = 0 → HQuant.poll_signals q = ([], false, q))
    ∧ (HQuant.poll_signals (HQuant.poll_signals q).2.2).1 = []
    ∧ (HQuant.poll_signals (HQuant.poll_signals q).2.2).2.1 = false := by
  refine ⟨?_, ?_, ?_⟩
  · intro h
    simp [hquant_signals_len] at h
    simp [HQuant.poll_signals, hquant_signals_len, h]
  · by_cases h : q.queue.length = 0 <;>
      simp [HQuant.poll_signals, hquant_signals_len, hquant_poll_signals, h,
        List.drop_length]
  · by_cases h : q.queue.length = 0 <;>
      simp [HQuant.poll_signals, hquant_signals_len, hquant_poll_signals, h,
        List.drop_length]

/-- Witness for C7: an empty queue polls to nothing without allocation, and a
one-element queue polls to nothing the second time. -/
theorem poll_signals_drains_witness :
    HQuant.poll_signals { queue := [] } = ([], false, { queue := [] })
    ∧ (HQuant.poll_signals
        (HQuant.poll_signals
          { queue := [{ strategy_id := 1, action := 1, timestamp := 5 }] }).2.2).1
      = [] :=
  ⟨(poll_signals_drains { queue := [] }).1 (by decide),
    (poll_signals_drains _).2.1⟩

/-- C8: when the native constructor reports null, `__init__` raises a typed
error (`MemoryError` for `HQuant`, `ValueError` for `FuturesBacktest`), and
no release is ever performed for the failed construction — in particular a
later finalizer run on the partially constructed object frees nothing. -/
theorem null_construction_typed_error_no_free (r : Option Nat) (hr : r = none) :
    HQuant.init r = .error (.memoryError "hquant_new returned NULL")
    ∧ (HQuant.del (HQuant.partialState r)).freeCount = 0
    ∧ FuturesBacktest.init r
      = .error (.valueError "hq_backtest_new returned NULL (invalid params?)")
    ∧ (FuturesBacktest.del (FuturesBacktest.partialState r)).freeCount = 0 := by
  subst hr
  exact ⟨rfl, rfl, rfl, rfl⟩

/-- Witness for C8: a `NULL` constructor result raises and the finalizer on
the partial object performs no free. -/
theorem null_construction_witness :
    HQuant.init none = .error (.memoryError "hquant_new returned NULL")
    ∧ (HQuant.del (HQuant.partialState none)).freeCount = 0
    ∧ (FuturesBacktest.del (FuturesBacktest.partialState none)).freeCount = 0 :=
  ⟨(null_construction_typed_error_no_free none rfl).1,
    (null_construction_typed_error_no_free none rfl).2.1,
    (null_construction_typed_error_no_free none rfl).2.2.2⟩

/-- C9: library resolution order — a non-empty explicit path wins; else a
non-empty `HQUANT_RS_LIB` environment override; else the platform default
(`libhquant_rs.dylib` on darwin, `libhquant_rs.so` on linux,
`hquant_rs.dll` on win32); and on any other platform resolution raises
`RuntimeError` with no library load attempted (the error result carries no
`cdll` action). -/
theorem load_lib_resolution (platform : String) (env path : Option String) :
    (∀ p, path = some p → p ≠ "" → load_lib platform env path = .ok (.cdll p))
    ∧ (∀ e, path = none → env = some e → e ≠ "" →
        load_lib platform env path = .ok (.cdll e))
    ∧ (path = none → env = none → platform = "darwin" →
        load_lib platform env path = .ok (.cdll "libhquant_rs.dylib"))
    ∧ (path = none → env = none → pyStartsWith platform "linux" = true →
        load_lib platform env path = .ok (.cdll "libhquant_rs.so"))
    ∧ (path = none → env = none → platform = "win32" →
        load_lib platform env path = .ok (.cdll "hquant_rs.dll"))
    ∧ (path = none → env = none → platform ≠ "darwin" →
        pyStartsWith platform "linux" = false → platform ≠ "win32" →
        load_lib platform env path
          = .error (.runtimeError ("unsupported platform: " ++ platform))) := by
  refine ⟨?_, ?_, ?_, ?_, ?_, ?_⟩
  · intro p hp hne
    subst hp
    simp [load_lib, hne]
  · intro e hp he hne
    subst hp; subst he
    simp [load_lib, hne]
  · intro hp he hplat
    subst hp; subst he; subst hplat
    simp [load_lib, default_lib_name, Except.map]
  · intro hp he hplat
    subst hp; subst he
    have hd : platform ≠ "darwin" := by
      intro hh; rw [hh] at hplat; exact absurd hplat (by decide)
    simp [load_lib, default_lib_name, hd, hplat, Except.map]
  · intro hp he hplat
    subst hp; subst he; subst hplat
    simp [load_lib, default_lib_name, pyStartsWith, Except.map]
  · intro hp he h1 h2 h3
    subst hp; subst he
    simp [load_lib, default_lib_name, h1, h2, h3, Except.map]

/-- Witness for C9: explicit path wins; linux defaults to the `.so` name;
an unknown platform is a `RuntimeError` with no load. -/
theorem load_lib_resolution_witness :
    load_lib "linux" none (some "/tmp/x.so") = .ok (.cdll "/tmp/x.so")
    ∧ load_lib "linux" none none = .ok (.cdll "libhquant_rs.so")
    ∧ load_lib "plan9" none none
      = .error (.runtimeError ("unsupported platform: " ++ "plan9")) :=
  ⟨(load_lib_resolution "linux" none (some "/tmp/x.so")).1 "/tmp/x.so" rfl (by decide),
    (load_lib_resolution "linux" none none).2.2.2.1 rfl rfl (by decide),
    (load_lib_resolution "plan9" none none).2.2.2.2.2 rfl rfl (by decide) (by decide)
      (by decide)⟩

/-- C10: the `apply_signal` encoding and the `poll_signals` decoding are
mutually inverse on the valid set: decoding the encoded tag of each of BUY,
SELL, HOLD yields the same string back, and encoding the decoded string of
each tag in {1, 2, 3} yields the tag back. -/
theorem action_encode_decode_round_trip :
    (FuturesBacktest.action_to_u8 "BUY" = .ok 1 ∧ decodeAction 1 = "BUY")
    ∧ (FuturesBacktest.action_to_u8 "SELL" = .ok 2 ∧ decodeAction 2 = "SELL")
    ∧ (FuturesBacktest.action_to_u8 "HOLD" = .ok 3 ∧ decodeAction 3 = "HOLD") :=
  ⟨⟨rfl, rfl⟩, ⟨rfl, rfl⟩, ⟨rfl, rfl⟩⟩

end HQuantPy
